import Mathlib

/-!
Verification development for the node-rcon client (Source RCON protocol).

The embedding is byte-level: a Node `Buffer` is a `List Nat` of byte values,
and JavaScript strings are represented by their UTF-8 byte sequences
(`List Nat`), so string concatenation is list append.  Machine int32 fields
are read and written through explicit little-endian encodings with two's
complement handled by `% 2^32` arithmetic on `Int`.  Fallible buffer reads
(Node throws `ERR_OUT_OF_RANGE` when a read runs past the end of the buffer)
are modelled with `Except Unit`.

The queued connection (`QueuedRconConnection`) is modelled as an explicit
event machine: the state carries the command queue, the packet-id counter and
the response timer, and each socket/timer/caller event is a pure step that
returns the successor state together with the observable outputs (socket
writes, promise resolutions and promise rejections).
-/

/-- Byte at index `i` of a buffer (`Buffer` bytes past the end read as 0;
all reads below are guarded by explicit length checks where Node throws). -/
def byteAt (b : List Nat) (i : Nat) : Nat := b.getD i 0

/-- Unsigned little-endian 32-bit read at offset `off`. -/
def readUInt32LE (b : List Nat) (off : Nat) : Nat :=
  byteAt b off + 256 * byteAt b (off + 1) + 65536 * byteAt b (off + 2) +
    16777216 * byteAt b (off + 3)

/-- Reinterpret an unsigned 32-bit value as a signed int32 (two's complement). -/
def toSigned32 (u : Nat) : Int :=
  if u < 2147483648 then (u : Int) else (u : Int) - 4294967296

/-- `buffer.readInt32LE(off)`: little-endian signed 32-bit read. -/
def readInt32LE (b : List Nat) (off : Nat) : Int :=
  toSigned32 (readUInt32LE b off)

/-- The four little-endian bytes of an unsigned 32-bit value. -/
def bytesOfUInt32 (n : Nat) : List Nat :=
  [n % 256, n / 256 % 256, n / 65536 % 256, n / 16777216 % 256]

/-- `buffer.writeInt32LE(v, off)`: the four bytes written for value `v`
(two's complement of `v` modulo `2^32`). -/
def writeInt32LE (v : Int) : List Nat :=
  bytesOfUInt32 ((v % 4294967296).toNat)

/-- Decimal rendering of an integer, as UTF-8 bytes (`JSON.stringify` of a
JS integer number). -/
def intStr (n : Int) : List Nat := (toString n).data.map Char.toNat

/-- Lower-case hex digit byte, used by the `\u00XX` JSON escapes. -/
def hexDigit (n : Nat) : Nat := if n < 10 then 48 + n else 87 + n

/-- `JSON.stringify` escaping of one byte of a string: `"` and `\` get a
backslash, the control characters BS HT LF FF CR get their short escapes,
other control bytes get `\u00XX`, and everything else passes through. -/
def jsonEscapeByte (b : Nat) : List Nat :=
  if b = 34 then [92, 34]
  else if b = 92 then [92, 92]
  else if b = 8 then [92, 98]
  else if b = 9 then [92, 116]
  else if b = 10 then [92, 110]
  else if b = 12 then [92, 102]
  else if b = 13 then [92, 114]
  else if b < 32 then [92, 117, 48, 48, hexDigit (b / 16), hexDigit (b % 16)]
  else [b]

/-- `JSON.stringify` escaping of a whole string (byte sequence). -/
def jsonEscape (s : List Nat) : List Nat := (s.map jsonEscapeByte).flatten

/-- A JSON string literal: quote, escaped body, quote. -/
def jsonQuote (s : List Nat) : List Nat := [34] ++ jsonEscape s ++ [34]

/-- Bytes of the literal text: RconPacket -/
def strRconPacket : List Nat := [82, 99, 111, 110, 80, 97, 99, 107, 101, 116]

/-- Bytes of the literal text: size -/
def strSize : List Nat := [115, 105, 122, 101]

/-- Bytes of the literal text: id -/
def strId : List Nat := [105, 100]

/-- Bytes of the literal text: type -/
def strType : List Nat := [116, 121, 112, 101]

/-- Bytes of the literal text: payload -/
def strPayload : List Nat := [112, 97, 121, 108, 111, 97, 100]

/-- Bytes of the redaction literal: <hidden> -/
def strHidden : List Nat := [60, 104, 105, 100, 100, 101, 110, 62]

/-- Bytes of the literal text: RCON (with the trailing space of the log
message template). -/
def strRCON : List Nat := [82, 67, 79, 78, 32]

/-- Bytes of the timeout-message fragment between the endpoint and the packet
description: space, the words timed out, space, open paren, double quote. -/
def strTimedOut1 : List Nat := [32, 116, 105, 109, 101, 100, 32, 111, 117, 116, 32, 40, 34]

/-- Bytes of the timeout-message tail: double quote, close paren. -/
def strTimedOut2 : List Nat := [34, 41]

/-- The numeric values of the `Rcon.PacketType` enumeration:
UNKNOWN -1, SERVERDATA_AUTH 3, SERVERDATA_AUTH_RESPONSE 2,
SERVERDATA_EXECCOMMAND 2 (the same numeric value as AUTH_RESPONSE),
SERVERDATA_RESPONSE_VALUE 0, BOUNDARY 255.  `Object.values` of the compiled
enum object contains exactly these numbers (plus the member-name strings,
which can never equal a numeric type read from the wire). -/
def normalizeType (v : Int) : Int :=
  if v = -1 ∨ v = 3 ∨ v = 2 ∨ v = 0 ∨ v = 255 then v else -1

namespace RconPacket

/-- `RconPacket.pack(id, type, payload)`: the buffer layout is
size field (= payload bytes + 10), id, type — each a little-endian int32 —
then the raw payload bytes and the two terminating NUL bytes.
`PACKET_FIXED_SIZE` is 14, so the size field is `size - 4`. -/
def pack (i ty : Int) (payload : List Nat) : List Nat :=
  writeInt32LE ((payload.length : Int) + 10) ++ writeInt32LE i ++ writeInt32LE ty ++
    payload ++ [0, 0]

/-- The `size` getter: `readInt32LE(0)`. -/
def size (b : List Nat) : Int := readInt32LE b 0

/-- The `id` getter: `readInt32LE(4)`. -/
def id (b : List Nat) : Int := readInt32LE b 4

/-- The raw `type` value: `readInt32LE(8)` before enum membership filtering. -/
def typeRaw (b : List Nat) : Int := readInt32LE b 8

/-- The `type` getter: the raw value when it is a member of the `PacketType`
enumeration, `UNKNOWN` (-1) otherwise. -/
def type (b : List Nat) : Int := normalizeType (typeRaw b)

/-- The `payload` getter: `buffer.toString(12, length - 2)`, the bytes between
offset 12 and the two terminating NULs. -/
def payload (b : List Nat) : List Nat := (b.drop 12).take (b.length - 14)

/-- Reading the `id` getter on an arbitrary inbound buffer; Node throws when
the buffer is shorter than 8 bytes. -/
def readIdE (b : List Nat) : Except Unit Int :=
  if 8 ≤ b.length then Except.ok (id b) else Except.error ()

/-- Reading the `type` getter on an arbitrary inbound buffer; Node throws when
the buffer is shorter than 12 bytes. -/
def readTypeE (b : List Nat) : Except Unit Int :=
  if 12 ≤ b.length then Except.ok (type b) else Except.error ()

/-- `reply.inResponseTo(req)`.  Field accesses follow the source order:
`req.id` then `reply.id` are compared first; on an id match the reply type is
switched on (`SERVERDATA_AUTH_RESPONSE` = 2 demands request type
`SERVERDATA_AUTH` = 3; `SERVERDATA_RESPONSE_VALUE` = 0 demands request type
`SERVERDATA_EXECCOMMAND` = 2 or `BOUNDARY` = 255; anything else, including
UNKNOWN, yields false).  `Except.error` models a thrown range error on a
buffer too short for the accessed field. -/
def inResponseTo (reply req : List Nat) : Except Unit Bool := do
  let qid ← readIdE req
  let rid ← readIdE reply
  if qid ≠ rid then
    pure false
  else do
    let rt ← readTypeE reply
    if rt = 2 then do
      let qt ← readTypeE req
      pure (decide (qt = 3))
    else if rt = 0 then do
      let qt ← readTypeE req
      pure (decide (qt = 2) || decide (qt = 255))
    else
      pure false

/-- `RconPacket#toString()`: debug rendering
`RconPacket` followed by the `JSON.stringify` of a record with the `size`,
`id` and `type` numbers and the payload — the literal `<hidden>` in place of
the payload when the type is `SERVERDATA_AUTH` (3). -/
def toString (b : List Nat) : List Nat :=
  strRconPacket ++ [123, 34] ++ strSize ++ [34, 58] ++ intStr (size b)
    ++ [44, 34] ++ strId ++ [34, 58] ++ intStr (id b)
    ++ [44, 34] ++ strType ++ [34, 58] ++ intStr (type b)
    ++ [44, 34] ++ strPayload ++ [34, 58]
    ++ jsonQuote (if type b = 3 then strHidden else payload b)
    ++ [125]

end RconPacket

/-- `true` exactly when the fallible `inResponseTo` returns `Except.ok true`
(a thrown error or an `ok false` both count as a non-match here). -/
def isOkTrue (e : Except Unit Bool) : Bool :=
  match e with
  | Except.ok b => b
  | Except.error _ => false

/-- Error values a queued command can be rejected with. -/
inductive RconError where
  | timeoutErr (msg : List Nat)
  | decodeErr
  | socketErr
deriving DecidableEq, Repr

/-- Observable outputs of one event step: socket writes of a command's
buffers, a resolved command (with the collected reply packets), or a rejected
command.  Commands are identified by their submission tag. -/
inductive Output where
  | wrote (tag : Nat) (bufs : List (List Nat))
  | completed (tag : Nat) (packets : List (List Nat))
  | failed (tag : Nat) (err : RconError)
deriving DecidableEq, Repr

/-- A queue-resident command (`Command` in the source): the request packet,
the optional boundary packet, the replies collected so far, the per-command
timeout and the sent flag.  `tag` is a ghost submission index used to state
ordering properties; it does not influence any step. -/
structure Command where
  tag : Nat
  packet : List Nat
  boundary : Option (List Nat)
  data : List (List Nat)
  timeout : Int
  sent : Bool
deriving DecidableEq, Repr

/-- The `QueuedRconConnection` state: endpoint identity, default timeout,
FIFO command queue, packet-id counter, next ghost tag and the active response
timer (carrying the delay it was started with). -/
structure ConnState where
  host : List Nat
  port : Int
  timeout : Int
  queue : List Command
  nextPacketId : Int
  nextTag : Nat
  timer : Option Int
deriving DecidableEq, Repr

/-- Events driving the connection machine. -/
inductive Event where
  | send (ty : Int) (payload : List Nat) (multipacket : Bool) (timeoutOpt : Option Int)
  | data (buf : List Nat)
  | timerFire
  | sockError
deriving DecidableEq, Repr

/-- The constructor's timeout computation:
`parseInt(String(options.timeout)) ? Math.max(options.timeout, 0) : 5000`.
An absent option parses to NaN (falsy) and a present value is falsy exactly
when it is 0 — so both an absent option and an explicit 0 yield 5000. -/
def initTimeout (t : Option Int) : Int :=
  match t with
  | none => 5000
  | some v => if v ≠ 0 then max v 0 else 5000

/-- Fresh connection state for the given options. -/
def init (host : List Nat) (port : Int) (timeoutOpt : Option Int) : ConnState :=
  { host := host, port := port, timeout := initTimeout timeoutOpt,
    queue := [], nextPacketId := 0, nextTag := 0, timer := none }

/-- The `nextPacketId` getter body: pre-increment, wrapping to 1 after
exceeding `2^31`. -/
def wrapInc (c : Int) : Int := if c + 1 > 2147483648 then 1 else c + 1

/-- The `logprefix` getter: the text RCON followed by host, a colon and the
port number. -/
def logPre (st : ConnState) : List Nat := strRCON ++ st.host ++ [58] ++ intStr st.port

/-- The timeout rejection message: logprefix, the timed-out template and the
offending packet's debug rendering. -/
def timeoutMsg (st : ConnState) (pkt : List Nat) : List Nat :=
  logPre st ++ strTimedOut1 ++ RconPacket.toString pkt ++ strTimedOut2

/-- `startResponseTimeout(time)`: returns without arming when the queue is
empty, otherwise arms the timer with the given delay — unconditionally, with
no special case for a zero delay. -/
def startResponseTimeout (st : ConnState) (time : Int) : ConnState :=
  if st.queue.isEmpty then st else { st with timer := some time }

/-- `processQueue()`: when the head command exists and is unsent, write its
request buffer (and boundary buffer, if present) to the socket, mark it sent
and start its response timeout. -/
def processQueue (st : ConnState) : ConnState × List Output :=
  match st.queue with
  | [] => (st, [])
  | command :: rest =>
    if command.sent then (st, [])
    else
      let bufs := command.packet ::
        (match command.boundary with
         | some b => [b]
         | none => [])
      let st1 : ConnState := { st with queue := { command with sent := true } :: rest }
      (startResponseTimeout st1 command.timeout, [Output.wrote command.tag bufs])

/-- The `try` block of `handleData` acting on the head command: compute
`inResponseTo(buffer, command.packet)`, push a matching reply onto
`command.data`, then decide completion — against the boundary packet when one
is present, else a matching reply completes immediately.  An `Except.error`
is a thrown buffer-range error caught by the `catch` clause. -/
def tryHandle (command : Command) (buf : List Nat) : Except Unit (Command × Bool) := do
  let isResponse ← RconPacket.inResponseTo buf command.packet
  let command := if isResponse then { command with data := command.data ++ [buf] } else command
  match command.boundary with
  | some b => do
      let isB ← RconPacket.inResponseTo buf b
      pure (command, isB)
  | none => pure (command, isResponse)

/-- `handleData(buffer)`: no-op on an empty queue; otherwise run the try
block on the head command.  On completion the head is shifted, its promise
resolved with the collected packets and the timer cleared; on a thrown decode
error the head is shifted and rejected; in every case `processQueue` is
re-run afterwards (the `finally` clause). -/
def stepData (st : ConnState) (buf : List Nat) : ConnState × List Output :=
  match st.queue with
  | [] => (st, [])
  | command :: rest =>
    match tryHandle command buf with
    | Except.ok (c, finished) =>
      if finished then
        let st1 : ConnState := { st with queue := rest, timer := none }
        let pq := processQueue st1
        (pq.1, Output.completed command.tag c.data :: pq.2)
      else
        let st1 : ConnState := { st with queue := c :: rest }
        let pq := processQueue st1
        (pq.1, pq.2)
    | Except.error _ =>
      let st1 : ConnState := { st with queue := rest, timer := none }
      let pq := processQueue st1
      (pq.1, Output.failed command.tag RconError.decodeErr :: pq.2)

/-- `sendPacket(type, payload, options)`: build the request packet from the
next packet id, build a boundary packet from a second fresh id when
multi-packet mode is requested, append the command (empty data, unsent) to
the queue tail and run `processQueue`. -/
def stepSend (st : ConnState) (ty : Int) (payload : List Nat) (multipacket : Bool)
    (timeoutOpt : Option Int) : ConnState × List Output :=
  let i1 := wrapInc st.nextPacketId
  let packet := RconPacket.pack i1 ty payload
  let bnd : Option (List Nat) :=
    if multipacket then some (RconPacket.pack (wrapInc i1) 255 []) else none
  let np := if multipacket then wrapInc i1 else i1
  let command : Command :=
    { tag := st.nextTag, packet := packet, boundary := bnd, data := [],
      timeout := timeoutOpt.getD st.timeout, sent := false }
  let st1 : ConnState :=
    { st with queue := st.queue ++ [command], nextPacketId := np, nextTag := st.nextTag + 1 }
  processQueue st1

/-- The armed response timer firing: shift the head command and reject it
with the timeout message naming the endpoint and the packet's debug
rendering.  The callback does not re-run `processQueue`. -/
def stepTimer (st : ConnState) : ConnState × List Output :=
  match st.timer with
  | none => (st, [])
  | some _ =>
    match st.queue with
    | [] => ({ st with timer := none }, [])
    | c :: rest =>
      ({ st with queue := rest, timer := none },
       [Output.failed c.tag (RconError.timeoutErr (timeoutMsg st c.packet))])

/-- `handleError(err)`: a socket error event shifts the head command (if any)
and rejects it; the rest of the queue is left untouched and `processQueue`
is not re-run. -/
def stepSockError (st : ConnState) : ConnState × List Output :=
  match st.queue with
  | [] => (st, [])
  | c :: rest => ({ st with queue := rest }, [Output.failed c.tag RconError.socketErr])

/-- One event step of the connection machine. -/
def step (st : ConnState) : Event → ConnState × List Output
  | Event.send ty payload mp tOpt => stepSend st ty payload mp tOpt
  | Event.data buf => stepData st buf
  | Event.timerFire => stepTimer st
  | Event.sockError => stepSockError st

/-- Run a sequence of events, concatenating the outputs in order. -/
def run (st : ConnState) : List Event → ConnState × List Output
  | [] => (st, [])
  | e :: es =>
    let p := step st e
    let q := run p.1 es
    (q.1, p.2 ++ q.2)

/-- `send()`'s resolution: `responses.reduce((r, pkt) => r + pkt.payload, '')`,
the left fold concatenating every collected reply's payload text. -/
def resolveText (pkts : List (List Nat)) : List Nat :=
  pkts.foldl (fun acc p => acc ++ RconPacket.payload p) []

/-- The ghost tags of the commands in the queue, in queue order. -/
def queueTags (st : ConnState) : List Nat := st.queue.map Command.tag

/-- The ghost tags of the not-yet-sent commands in the queue, in queue order. -/
def unsentTags (st : ConnState) : List Nat :=
  (st.queue.filter (fun c => !c.sent)).map Command.tag

/-- The tag of a completion output (resolution or rejection). -/
def compTag : Output → Option Nat
  | Output.completed t _ => some t
  | Output.failed t _ => some t
  | Output.wrote _ _ => none

/-- The tag of a socket-write output. -/
def wroteTag : Output → Option Nat
  | Output.wrote t _ => some t
  | _ => none

/-- Completion tags of an output trace, in emission order. -/
def compTags (outs : List Output) : List Nat := outs.filterMap compTag

/-- Write tags of an output trace, in emission order. -/
def wroteTags (outs : List Output) : List Nat := outs.filterMap wroteTag

/-- Tags of successfully resolved commands in an output trace. -/
def successTags (outs : List Output) : List Nat :=
  outs.filterMap fun o =>
    match o with
    | Output.completed t _ => some t
    | _ => none

/-- Whether an output is a rejection with a timeout error. -/
def isTimeoutFail : Output → Bool
  | Output.failed _ (RconError.timeoutErr _) => true
  | _ => false

/-- `Rcon.SendOptions`: optional per-command timeout and multipacket flag. -/
structure SendOptions where
  timeout : Option Int
  multipacket : Option Bool
deriving DecidableEq, Repr

/-- Calls the public `RconClient` wrapper makes on its connection. -/
inductive ClientCall where
  | connect
  | connSend (cmd : List Nat) (options : SendOptions)
deriving DecidableEq, Repr

/-- The options object `{...options, multipacket: true}` built by
`RconClient.send`: the spread copies the caller's timeout (absent when no
options were passed) and the trailing property write forces multipacket on. -/
def mergeOptions (options : Option SendOptions) : SendOptions :=
  { timeout :=
      match options with
      | some o => o.timeout
      | none => none,
    multipacket := some true }

/-- `RconClient.send(cmd, options)`: awaits `connect()` and then invokes the
connection's `send` with the merged options, in that order. -/
def clientSend (cmd : List Nat) (options : Option SendOptions) : List ClientCall :=
  [ClientCall.connect, ClientCall.connSend cmd (mergeOptions options)]

/-- The connection-machine event produced by the wrapper's `send` call:
`send` uses packet type SERVERDATA_EXECCOMMAND (2), the merged multipacket
flag and the merged timeout option. -/
def wrapperEvent (cmd : List Nat) (options : Option SendOptions) : Event :=
  Event.send 2 cmd (((mergeOptions options).multipacket).getD false)
    ((mergeOptions options).timeout)

/-- The connection state after a fresh connection performs one multipacket
send: the queued command carries tag 0, the request packet with id 1, the
boundary packet with id 2 and the collected data `dat`; it has been flushed
and the response timer is armed. -/
def c3MidState (host : List Nat) (port : Int) (tOptC tOptS : Option Int)
    (payload : List Nat) (dat : List (List Nat)) : ConnState :=
  { host := host, port := port, timeout := initTimeout tOptC,
    queue := [⟨0, RconPacket.pack 1 2 payload, some (RconPacket.pack 2 255 []), dat,
      tOptS.getD (initTimeout tOptC), true⟩],
    nextPacketId := 2, nextTag := 1, timer := some (tOptS.getD (initTimeout tOptC)) }

/-- Trace invariant of the connection machine: `done` are the completion tags
emitted so far and `written` the write tags.  Completions extend `done` from
the queue head, writes extend `written` from the first unsent command, every
live tag is below the tag counter, and only the queue head can be sent. -/
structure MInv (done written : List Nat) (st : ConnState) : Prop where
  comp_sorted : List.Pairwise (· < ·) (done ++ queueTags st)
  wrote_sorted : List.Pairwise (· < ·) (written ++ unsentTags st)
  done_lt : ∀ t ∈ done, t < st.nextTag
  queue_lt : ∀ c ∈ st.queue, c.tag < st.nextTag
  written_lt : ∀ t ∈ written, t < st.nextTag
  tail_unsent : ∀ c ∈ st.queue.drop 1, c.sent = false

/-! ## Packet codec lemmas -/

theorem toNat_emod_lt (v : Int) : (v % 4294967296).toNat < 4294967296 := by omega

theorem toSigned32_emod (v : Int) (h1 : -2147483648 ≤ v) (h2 : v < 2147483648) :
    toSigned32 ((v % 4294967296).toNat) = v := by
  unfold toSigned32
  split <;> omega

theorem size_pack (i ty : Int) (p : List Nat) :
    RconPacket.size (RconPacket.pack i ty p) =
      toSigned32 ((((p.length : Int) + 10) % 4294967296).toNat) := by
  have e : readUInt32LE (RconPacket.pack i ty p) 0 =
      (((p.length : Int) + 10) % 4294967296).toNat % 256 +
      256 * ((((p.length : Int) + 10) % 4294967296).toNat / 256 % 256) +
      65536 * ((((p.length : Int) + 10) % 4294967296).toNat / 65536 % 256) +
      16777216 * ((((p.length : Int) + 10) % 4294967296).toNat / 16777216 % 256) := rfl
  have h := toNat_emod_lt ((p.length : Int) + 10)
  unfold RconPacket.size readInt32LE
  rw [e]
  congr 1
  omega

theorem id_pack (i ty : Int) (p : List Nat) :
    RconPacket.id (RconPacket.pack i ty p) = toSigned32 ((i % 4294967296).toNat) := by
  have e : readUInt32LE (RconPacket.pack i ty p) 4 =
      (i % 4294967296).toNat % 256 +
      256 * ((i % 4294967296).toNat / 256 % 256) +
      65536 * ((i % 4294967296).toNat / 65536 % 256) +
      16777216 * ((i % 4294967296).toNat / 16777216 % 256) := rfl
  have h := toNat_emod_lt i
  unfold RconPacket.id readInt32LE
  rw [e]
  congr 1
  omega

theorem typeRaw_pack (i ty : Int) (p : List Nat) :
    RconPacket.typeRaw (RconPacket.pack i ty p) = toSigned32 ((ty % 4294967296).toNat) := by
  have e : readUInt32LE (RconPacket.pack i ty p) 8 =
      (ty % 4294967296).toNat % 256 +
      256 * ((ty % 4294967296).toNat / 256 % 256) +
      65536 * ((ty % 4294967296).toNat / 65536 % 256) +
      16777216 * ((ty % 4294967296).toNat / 16777216 % 256) := rfl
  have h := toNat_emod_lt ty
  unfold RconPacket.typeRaw readInt32LE
  rw [e]
  congr 1
  omega

theorem pack_length (i ty : Int) (p : List Nat) :
    (RconPacket.pack i ty p).length = p.length + 14 := by
  simp [RconPacket.pack, writeInt32LE, bytesOfUInt32]

theorem payload_pack (i ty : Int) (p : List Nat) :
    RconPacket.payload (RconPacket.pack i ty p) = p := by
  have d : (RconPacket.pack i ty p).drop 12 = p ++ [0, 0] := rfl
  have l : (RconPacket.pack i ty p).length - 14 = p.length := by
    rw [pack_length]
    omega
  unfold RconPacket.payload
  rw [d, l]
  exact List.take_left p [0, 0]

/-! ## C1: encode/decode round trip -/

/-- C1: for every id in the valid int32 range, every type in the `PacketType`
enumeration and every payload (given as its UTF-8 bytes, NUL-free, small
enough for the int32 size field Node writes), packing and reading the fields
back yields the same id, type and payload, and the size field reads
`10 + byteLength(payload)`. -/
theorem c1_encode_decode_roundtrip (i ty : Int) (p : List Nat)
    (hid : -2147483648 ≤ i ∧ i < 2147483648)
    (hty : ty = -1 ∨ ty = 3 ∨ ty = 2 ∨ ty = 0 ∨ ty = 255)
    (_hnul : ∀ b ∈ p, 0 < b ∧ b < 256)
    (hlen : (p.length : Int) + 10 < 2147483648) :
    RconPacket.size (RconPacket.pack i ty p) = 10 + (p.length : Int) ∧
    RconPacket.id (RconPacket.pack i ty p) = i ∧
    RconPacket.type (RconPacket.pack i ty p) = ty ∧
    RconPacket.payload (RconPacket.pack i ty p) = p := by
  have hty' : -2147483648 ≤ ty ∧ ty < 2147483648 := by
    rcases hty with h | h | h | h | h <;> simp [h]
  refine ⟨?_, ?_, ?_, payload_pack i ty p⟩
  · rw [size_pack, toSigned32_emod ((p.length : Int) + 10) (by omega) hlen]
    ring
  · rw [id_pack, toSigned32_emod i hid.1 hid.2]
  · rw [RconPacket.type, typeRaw_pack, toSigned32_emod ty hty'.1 hty'.2]
    unfold normalizeType
    rw [if_pos hty]

/-- Witness for C1 at id 414, type SERVERDATA_EXECCOMMAND and payload
restart. -/
theorem c1_encode_decode_roundtrip_witness :
    ((-2147483648 ≤ (414 : Int) ∧ (414 : Int) < 2147483648) ∧
      (([114, 101, 115, 116, 97, 114, 116].length : Int) + 10 < 2147483648)) ∧
    (RconPacket.size (RconPacket.pack 414 2 [114, 101, 115, 116, 97, 114, 116]) =
        10 + (([114, 101, 115, 116, 97, 114, 116] : List Nat).length : Int) ∧
      RconPacket.id (RconPacket.pack 414 2 [114, 101, 115, 116, 97, 114, 116]) = 414 ∧
      RconPacket.type (RconPacket.pack 414 2 [114, 101, 115, 116, 97, 114, 116]) = 2 ∧
      RconPacket.payload (RconPacket.pack 414 2 [114, 101, 115, 116, 97, 114, 116]) =
        [114, 101, 115, 116, 97, 114, 116]) :=
  ⟨⟨by decide, by decide⟩,
    c1_encode_decode_roundtrip 414 2 [114, 101, 115, 116, 97, 114, 116]
      (by decide) (by decide) (by decide) (by decide)⟩

/-! ## C2: the reply-matching predicate -/

/-- C2: on buffers long enough to carry the fixed header (so no field read
throws), `inResponseTo` returns without throwing, and returns true exactly
when the ids match and the decoded types form one of the two legal pairings:
reply AUTH_RESPONSE (2) to request AUTH (3), or reply RESPONSE_VALUE (0) to
request EXECCOMMAND (2) or BOUNDARY (255).  In particular an id mismatch or
a reply type decoding to UNKNOWN (-1) yields false. -/
theorem c2_inResponseTo_iff (r q : List Nat) (hr : 12 ≤ r.length) (hq : 12 ≤ q.length) :
    (∃ b, RconPacket.inResponseTo r q = Except.ok b) ∧
    (RconPacket.inResponseTo r q = Except.ok true ↔
      (RconPacket.id r = RconPacket.id q ∧
        ((RconPacket.type r = 2 ∧ RconPacket.type q = 3) ∨
          (RconPacket.type r = 0 ∧ (RconPacket.type q = 2 ∨ RconPacket.type q = 255))))) := by
  have hr8 : 8 ≤ r.length := by omega
  have hq8 : 8 ≤ q.length := by omega
  unfold RconPacket.inResponseTo RconPacket.readIdE RconPacket.readTypeE
  rw [if_pos hq8, if_pos hr8, if_pos hr, if_pos hq]
  simp only [bind, Except.bind, pure, Except.pure]
  by_cases hid : RconPacket.id q = RconPacket.id r
  · rw [if_neg (by simp [hid])]
    by_cases h2 : RconPacket.type r = 2
    · rw [if_pos h2]
      exact ⟨⟨_, rfl⟩, by simp [hid, h2, decide_eq_true_eq]⟩
    · rw [if_neg h2]
      by_cases h0 : RconPacket.type r = 0
      · rw [if_pos h0]
        exact ⟨⟨_, rfl⟩, by simp [hid, h2, h0, decide_eq_true_eq]⟩
      · rw [if_neg h0]
        exact ⟨⟨false, rfl⟩, by simp [hid, h2, h0]⟩
  · rw [if_pos hid]
    have hid' : RconPacket.id r ≠ RconPacket.id q := fun h => hid h.symm
    exact ⟨⟨false, rfl⟩, by simp [hid']⟩

/-- Witness for C2: the AUTH_RESPONSE reply with id 5 matches the AUTH
request with id 5. -/
theorem c2_inResponseTo_iff_witness :
    (12 ≤ (RconPacket.pack 5 2 []).length ∧ 12 ≤ (RconPacket.pack 5 3 [107]).length) ∧
    ((∃ b, RconPacket.inResponseTo (RconPacket.pack 5 2 []) (RconPacket.pack 5 3 [107]) =
        Except.ok b) ∧
      (RconPacket.inResponseTo (RconPacket.pack 5 2 []) (RconPacket.pack 5 3 [107]) =
          Except.ok true ↔
        (RconPacket.id (RconPacket.pack 5 2 []) = RconPacket.id (RconPacket.pack 5 3 [107]) ∧
          ((RconPacket.type (RconPacket.pack 5 2 []) = 2 ∧
              RconPacket.type (RconPacket.pack 5 3 [107]) = 3) ∨
            (RconPacket.type (RconPacket.pack 5 2 []) = 0 ∧
              (RconPacket.type (RconPacket.pack 5 3 [107]) = 2 ∨
                RconPacket.type (RconPacket.pack 5 3 [107]) = 255)))))) :=
  ⟨⟨by decide, by decide⟩,
    c2_inResponseTo_iff (RconPacket.pack 5 2 []) (RconPacket.pack 5 3 [107])
      (by decide) (by decide)⟩

/-! ## C9: credential redaction in the debug rendering -/

theorem type_pack (i ty : Int) (p : List Nat)
    (hty : ty = -1 ∨ ty = 3 ∨ ty = 2 ∨ ty = 0 ∨ ty = 255) :
    RconPacket.type (RconPacket.pack i ty p) = ty := by
  have hty' : -2147483648 ≤ ty ∧ ty < 2147483648 := by
    rcases hty with h | h | h | h | h <;> simp [h]
  rw [RconPacket.type, typeRaw_pack, toSigned32_emod ty hty'.1 hty'.2]
  unfold normalizeType
  rw [if_pos hty]

theorem jsonEscapeByte_eq (b : Nat) (h32 : 32 ≤ b) (h34 : b ≠ 34) (h92 : b ≠ 92) :
    jsonEscapeByte b = [b] := by
  unfold jsonEscapeByte
  rw [if_neg h34, if_neg h92, if_neg (by omega), if_neg (by omega), if_neg (by omega),
    if_neg (by omega), if_neg (by omega), if_neg (by omega)]

theorem jsonEscape_eq_self (s : List Nat) (h : ∀ b ∈ s, 32 ≤ b ∧ b ≠ 34 ∧ b ≠ 92) :
    jsonEscape s = s := by
  induction s with
  | nil => rfl
  | cons a t ih =>
    have ha := h a (by simp)
    have ht := ih (fun b hb => h b (by simp [hb]))
    unfold jsonEscape at ht ⊢
    rw [List.map_cons, List.flatten_cons, ht, jsonEscapeByte_eq a ha.1 ha.2.1 ha.2.2]
    rfl

/-- The debug rendering split as prefix ++ escaped payload text ++ suffix. -/
theorem toString_decomp (b : List Nat) :
    RconPacket.toString b =
      (strRconPacket ++ [123, 34] ++ strSize ++ [34, 58] ++ intStr (RconPacket.size b)
        ++ [44, 34] ++ strId ++ [34, 58] ++ intStr (RconPacket.id b)
        ++ [44, 34] ++ strType ++ [34, 58] ++ intStr (RconPacket.type b)
        ++ [44, 34] ++ strPayload ++ [34, 58] ++ [34]) ++
      jsonEscape (if RconPacket.type b = 3 then strHidden else RconPacket.payload b) ++
      ([34] ++ [125]) := by
  unfold RconPacket.toString jsonQuote
  simp [List.append_assoc]

/-- C9 counterexample: the AUTH packet with id 1 and one-byte payload 3 (the
digit) renders with the payload redacted, yet the payload text still occurs
in the rendered string (inside the numeric type field), so "the payload text
never appears in the rendered string" fails as stated. -/
theorem c9_redaction_counterexample :
    RconPacket.type (RconPacket.pack 1 3 [51]) = 3 ∧
    RconPacket.payload (RconPacket.pack 1 3 [51]) = [51] ∧
    RconPacket.payload (RconPacket.pack 1 3 [51]) <:+:
      RconPacket.toString (RconPacket.pack 1 3 [51]) := by decide

/-- C9 amended: for AUTH packets the rendering replaces the payload with the
literal <hidden> — the rendered string depends on the payload only through
its byte length (identical for any two equal-length passwords) and contains
the <hidden> literal; the payload can reappear only coincidentally, as a
substring of the rendered numeric fields.  For every other enumeration type
the payload is rendered verbatim (here: payloads with no JSON-escaped
bytes occur as a substring). -/
theorem c9_redaction_amended (i : Int) (p q pl : List Nat) (ty : Int)
    (hlen : p.length = q.length)
    (hty : ty = -1 ∨ ty = 0 ∨ ty = 2 ∨ ty = 255)
    (hpl : ∀ b ∈ pl, 32 ≤ b ∧ b ≠ 34 ∧ b ≠ 92) :
    RconPacket.toString (RconPacket.pack i 3 p) =
      RconPacket.toString (RconPacket.pack i 3 q) ∧
    strHidden <:+: RconPacket.toString (RconPacket.pack i 3 p) ∧
    pl <:+: RconPacket.toString (RconPacket.pack i ty pl) := by
  have h3p : RconPacket.type (RconPacket.pack i 3 p) = 3 :=
    type_pack i 3 p (Or.inr (Or.inl rfl))
  have h3q : RconPacket.type (RconPacket.pack i 3 q) = 3 :=
    type_pack i 3 q (Or.inr (Or.inl rfl))
  have htyn : RconPacket.type (RconPacket.pack i ty pl) = ty := by
    refine type_pack i ty pl ?_
    rcases hty with h | h | h | h
    · exact Or.inl h
    · exact Or.inr (Or.inr (Or.inr (Or.inl h)))
    · exact Or.inr (Or.inr (Or.inl h))
    · exact Or.inr (Or.inr (Or.inr (Or.inr h)))
  have hty3 : ty ≠ 3 := by rcases hty with h | h | h | h <;> simp [h]
  refine ⟨?_, ?_, ?_⟩
  · unfold RconPacket.toString
    rw [h3p, h3q, size_pack, size_pack, id_pack, id_pack, hlen]
    simp
  · rw [toString_decomp, h3p, if_pos rfl,
      (by decide : jsonEscape strHidden = strHidden)]
    exact List.infix_append _ _ _
  · rw [toString_decomp, htyn, if_neg hty3, payload_pack, jsonEscape_eq_self pl hpl]
    exact List.infix_append _ _ _

/-- Witness for C9 amended at id 1, equal-length passwords a and b, and a
RESPONSE_VALUE packet with payload hi. -/
theorem c9_redaction_amended_witness :
    (([97] : List Nat).length = ([98] : List Nat).length ∧
      (∀ b ∈ ([104, 105] : List Nat), 32 ≤ b ∧ b ≠ 34 ∧ b ≠ 92)) ∧
    (RconPacket.toString (RconPacket.pack 1 3 [97]) =
        RconPacket.toString (RconPacket.pack 1 3 [98]) ∧
      strHidden <:+: RconPacket.toString (RconPacket.pack 1 3 [97]) ∧
      [104, 105] <:+: RconPacket.toString (RconPacket.pack 1 0 [104, 105])) :=
  ⟨⟨by decide, by decide⟩,
    c9_redaction_amended 1 [97] [98] [104, 105] 0 (by decide)
      (Or.inr (Or.inl rfl)) (by decide)⟩

/-! ## Connection machine helper lemmas -/

@[simp] theorem startResponseTimeout_queue (st : ConnState) (t : Int) :
    (startResponseTimeout st t).queue = st.queue := by
  unfold startResponseTimeout
  split <;> rfl

@[simp] theorem startResponseTimeout_nextTag (st : ConnState) (t : Int) :
    (startResponseTimeout st t).nextTag = st.nextTag := by
  unfold startResponseTimeout
  split <;> rfl

theorem getLast?_cons_concat {α : Type} (x : α) (t : List α) (c : α) :
    (x :: (t ++ [c])).getLast? = some c := by
  rw [← List.cons_append, List.getLast?_concat]

/-- The command `sendPacket` appends to the queue tail: its request packet is
built from the incremented packet-id counter, and in multipacket mode its
boundary packet from the next increment.  `processQueue` can at most flip the
head's sent flag, so the appended command's packets survive unchanged. -/
theorem stepSend_getLast (st : ConnState) (ty : Int) (payload : List Nat) (mp : Bool)
    (tOpt : Option Int) :
    ∃ c : Command,
      (stepSend st ty payload mp tOpt).1.queue.getLast? = some c ∧
      c.packet = RconPacket.pack (wrapInc st.nextPacketId) ty payload ∧
      c.boundary = (if mp then
        some (RconPacket.pack (wrapInc (wrapInc st.nextPacketId)) 255 []) else none) := by
  cases hq : st.queue with
  | nil =>
    refine ⟨{ tag := st.nextTag,
              packet := RconPacket.pack (wrapInc st.nextPacketId) ty payload,
              boundary := if mp then
                some (RconPacket.pack (wrapInc (wrapInc st.nextPacketId)) 255 []) else none,
              data := [], timeout := tOpt.getD st.timeout, sent := true }, ?_, rfl, rfl⟩
    simp [stepSend, processQueue, hq]
  | cons h t =>
    refine ⟨{ tag := st.nextTag,
              packet := RconPacket.pack (wrapInc st.nextPacketId) ty payload,
              boundary := if mp then
                some (RconPacket.pack (wrapInc (wrapInc st.nextPacketId)) 255 []) else none,
              data := [], timeout := tOpt.getD st.timeout, sent := false }, ?_, rfl, rfl⟩
    by_cases hs : h.sent
    · simp [stepSend, processQueue, hq, hs, getLast?_cons_concat]
    · simp [stepSend, processQueue, hq, hs, getLast?_cons_concat]

/-! ## C4: the boundary packet's id -/

theorem wrapInc_wrapInc_ne (c : Int) : wrapInc (wrapInc c) ≠ wrapInc c := by
  unfold wrapInc
  split_ifs <;> omega

/-- C4 counterexample: on a fresh connection a multipacket send builds the
request packet with id 1 and the boundary packet with id 2 — the boundary
does not share the request's id (`nextPacketId` increments on each access). -/
theorem c4_boundary_id_counterexample :
    ((step (init [104] 25575 none) (Event.send 2 [99] true none)).1.queue.map
        (fun c => (RconPacket.id c.packet, c.boundary.map RconPacket.id))) =
      [(1, some 2)] ∧ ((1 : Int) = 2 → False) := by decide

/-- C4 amended: for every send with multi-packet detection requested, the
BOUNDARY packet built alongside the request packet carries the next id drawn
from the auto-incrementing counter — the successor (with wrap) of the request
packet's id, never the same id. -/
theorem c4_boundary_id_amended (st : ConnState) (payload : List Nat) (tOpt : Option Int) :
    ∃ c : Command,
      (stepSend st 2 payload true tOpt).1.queue.getLast? = some c ∧
      c.packet = RconPacket.pack (wrapInc st.nextPacketId) 2 payload ∧
      c.boundary = some (RconPacket.pack (wrapInc (wrapInc st.nextPacketId)) 255 []) ∧
      wrapInc (wrapInc st.nextPacketId) ≠ wrapInc st.nextPacketId := by
  obtain ⟨c, h1, h2, h3⟩ := stepSend_getLast st 2 payload true tOpt
  exact ⟨c, h1, h2, by simpa using h3, wrapInc_wrapInc_ne st.nextPacketId⟩

/-! ## C6: timeout 0 does not disable the timer -/

/-- C6, evaluated on the code: a connection constructed with timeout option 0
gets the 5000 ms default instead of a disabled timeout (`parseInt` of the
string 0 is falsy), so a send without a per-command timeout arms the timer
with 5000 ms; and a per-command timeout of 0 arms the timer with delay 0 —
`startResponseTimeout` has no zero check — after which the timer firing
rejects the command with a timeout error.  Under the claim none of these
timers would exist and no timeout rejection would be possible. -/
theorem c6_timeout_zero_not_disabled :
    initTimeout (some 0) = 5000 ∧
    (step (init [104] 25575 (some 0)) (Event.send 2 [97] false none)).1.timer = some 5000 ∧
    (step (init [104] 25575 (some 0)) (Event.send 2 [97] false (some 0))).1.timer = some 0 ∧
    compTags (step ((step (init [104] 25575 (some 0)) (Event.send 2 [97] false (some 0))).1)
        Event.timerFire).2 = [0] ∧
    (step ((step (init [104] 25575 (some 0)) (Event.send 2 [97] false (some 0))).1)
        Event.timerFire).2.any isTimeoutFail = true := by decide

/-! ## C10: the client wrapper -/

/-- C10: `RconClient.send` first awaits `connect()` and then calls the
connection's `send` with `{...options, multipacket: true}`: the merged
options force multipacket on regardless of the caller's value (two options
differing only in `multipacket` merge identically) while preserving the
caller's timeout, and the command the connection enqueues for the wrapper's
call always carries a boundary packet — single-packet mode is unreachable
through the wrapper. -/
theorem c10_wrapper_forces_multipacket (cmd : List Nat) (options : Option SendOptions) :
    clientSend cmd options =
      [ClientCall.connect, ClientCall.connSend cmd (mergeOptions options)] ∧
    (mergeOptions options).multipacket = some true ∧
    (mergeOptions options).timeout = options.bind SendOptions.timeout ∧
    (∀ (t : Option Int) (mp mp' : Option Bool),
      mergeOptions (some ⟨t, mp⟩) = mergeOptions (some ⟨t, mp'⟩)) ∧
    (∀ st : ConnState, ∃ c : Command,
      (step st (wrapperEvent cmd options)).1.queue.getLast? = some c ∧
      c.boundary.isSome = true) := by
  refine ⟨rfl, rfl, ?_, fun t mp mp' => rfl, ?_⟩
  · cases options <;> rfl
  · intro st
    obtain ⟨c, h1, h2, h3⟩ := stepSend_getLast st 2 cmd true ((mergeOptions options).timeout)
    refine ⟨c, h1, ?_⟩
    rw [h3]
    rfl

/-! ## C5: trace invariant machinery -/

@[simp] theorem compTags_nil : compTags [] = [] := rfl

@[simp] theorem wroteTags_nil : wroteTags [] = [] := rfl

@[simp] theorem compTags_append (a b : List Output) :
    compTags (a ++ b) = compTags a ++ compTags b := by
  simp [compTags]

@[simp] theorem wroteTags_append (a b : List Output) :
    wroteTags (a ++ b) = wroteTags a ++ wroteTags b := by
  simp [wroteTags]

@[simp] theorem compTags_wrote (t : Nat) (bufs : List (List Nat)) (l : List Output) :
    compTags (Output.wrote t bufs :: l) = compTags l := by
  simp [compTags, compTag]

@[simp] theorem compTags_completed (t : Nat) (d : List (List Nat)) (l : List Output) :
    compTags (Output.completed t d :: l) = t :: compTags l := by
  simp [compTags, compTag]

@[simp] theorem compTags_failed (t : Nat) (e : RconError) (l : List Output) :
    compTags (Output.failed t e :: l) = t :: compTags l := by
  simp [compTags, compTag]

@[simp] theorem wroteTags_wrote (t : Nat) (bufs : List (List Nat)) (l : List Output) :
    wroteTags (Output.wrote t bufs :: l) = t :: wroteTags l := by
  simp [wroteTags, wroteTag]

@[simp] theorem wroteTags_completed (t : Nat) (d : List (List Nat)) (l : List Output) :
    wroteTags (Output.completed t d :: l) = wroteTags l := by
  simp [wroteTags, wroteTag]

@[simp] theorem wroteTags_failed (t : Nat) (e : RconError) (l : List Output) :
    wroteTags (Output.failed t e :: l) = wroteTags l := by
  simp [wroteTags, wroteTag]

/-- `MInv` only looks at the queue and the tag counter, so it transports
along any state change that preserves them (timer updates, the packet-id
counter, the host fields). -/
theorem MInv_congr (d w : List Nat) (st st' : ConnState) (h : MInv d w st)
    (hq : st'.queue = st.queue) (hn : st'.nextTag = st.nextTag) : MInv d w st' := by
  constructor
  · rw [queueTags, hq]
    exact h.comp_sorted
  · rw [unsentTags, hq]
    exact h.wrote_sorted
  · rw [hn]
    exact h.done_lt
  · rw [hq, hn]
    exact h.queue_lt
  · rw [hn]
    exact h.written_lt
  · rw [hq]
    exact h.tail_unsent

/-- Popping the queue head as a completion: the head's tag moves to the end
of the completion trace. -/
theorem MInv_pop (d w : List Nat) (st : ConnState) (c : Command) (rest : List Command)
    (hq : st.queue = c :: rest) (h : MInv d w st) (st' : ConnState)
    (hq' : st'.queue = rest) (hn : st'.nextTag = st.nextTag) :
    MInv (d ++ [c.tag]) w st' := by
  have hsub : List.Sublist (unsentTags st') (unsentTags st) := by
    rw [unsentTags, unsentTags, hq', hq, List.filter_cons]
    split
    · exact (List.sublist_cons_self _ _).map Command.tag
    · exact List.Sublist.refl _
  constructor
  · have := h.comp_sorted
    rw [queueTags, hq] at this
    rw [queueTags, hq', List.append_assoc]
    simpa using this
  · exact (h.wrote_sorted).sublist ((List.Sublist.refl w).append hsub)
  · intro t ht
    rw [hn]
    rcases List.mem_append.mp ht with h1 | h1
    · exact h.done_lt t h1
    · rw [List.mem_singleton.mp h1]
      exact h.queue_lt c (by rw [hq]; exact List.mem_cons_self c rest)
  · intro x hx
    rw [hq', hn] at *
    exact h.queue_lt x (by rw [hq]; exact List.mem_cons_of_mem c hx)
  · intro t ht
    rw [hn]
    exact h.written_lt t ht
  · intro x hx
    rw [hq'] at hx
    have : x ∈ rest := List.drop_subset 1 rest hx
    have := h.tail_unsent x (by rw [hq]; simpa using this)
    exact this

/-- Mutating the head command without touching its tag or sent flag (the
`data.push` of a matching reply) preserves the invariant. -/
theorem MInv_mutateHead (d w : List Nat) (st : ConnState) (c c' : Command)
    (rest : List Command) (hq : st.queue = c :: rest) (htag : c'.tag = c.tag)
    (hsent : c'.sent = c.sent) (h : MInv d w st) (st' : ConnState)
    (hq' : st'.queue = c' :: rest) (hn : st'.nextTag = st.nextTag) : MInv d w st' := by
  have hqt : queueTags st' = queueTags st := by
    rw [queueTags, queueTags, hq, hq']
    simp [htag]
  have hut : unsentTags st' = unsentTags st := by
    rw [unsentTags, unsentTags, hq, hq', List.filter_cons, List.filter_cons, hsent]
    split <;> simp [htag]
  constructor
  · rw [hqt]
    exact h.comp_sorted
  · rw [hut]
    exact h.wrote_sorted
  · rw [hn]
    exact h.done_lt
  · intro x hx
    rw [hq'] at hx
    rw [hn]
    rcases List.mem_cons.mp hx with h1 | h1
    · rw [h1, htag]
      exact h.queue_lt c (by rw [hq]; exact List.mem_cons_self c rest)
    · exact h.queue_lt x (by rw [hq]; exact List.mem_cons_of_mem c h1)
  · intro t ht
    rw [hn]
    exact h.written_lt t ht
  · intro x hx
    rw [hq'] at hx
    exact h.tail_unsent x (by rw [hq]; simpa using hx)

/-- Appending a fresh unsent command carrying the next tag preserves the
invariant (with the tag counter bumped). -/
theorem MInv_enqueue (d w : List Nat) (st : ConnState) (cmd : Command)
    (hct : cmd.tag = st.nextTag) (hcs : cmd.sent = false) (h : MInv d w st)
    (st' : ConnState) (hq' : st'.queue = st.queue ++ [cmd])
    (hn : st'.nextTag = st.nextTag + 1) : MInv d w st' := by
  have hqt : queueTags st' = queueTags st ++ [cmd.tag] := by
    rw [queueTags, queueTags, hq']
    simp
  have hut : unsentTags st' = unsentTags st ++ [cmd.tag] := by
    rw [unsentTags, unsentTags, hq', List.filter_append]
    simp [List.filter_cons, hcs]
  have hql : ∀ a ∈ queueTags st, a < st.nextTag := by
    intro a ha
    rcases List.mem_map.mp ha with ⟨x, hx, rfl⟩
    exact h.queue_lt x hx
  have hul : ∀ a ∈ unsentTags st, a < st.nextTag := by
    intro a ha
    rcases List.mem_map.mp ha with ⟨x, hx, rfl⟩
    exact h.queue_lt x (List.mem_of_mem_filter hx)
  constructor
  · rw [hqt, ← List.append_assoc, List.pairwise_append]
    refine ⟨h.comp_sorted, List.pairwise_singleton _ _, ?_⟩
    intro a ha b hb
    rw [List.mem_singleton.mp hb, hct]
    rcases List.mem_append.mp ha with h1 | h1
    · exact h.done_lt a h1
    · exact hql a h1
  · rw [hut, ← List.append_assoc, List.pairwise_append]
    refine ⟨h.wrote_sorted, List.pairwise_singleton _ _, ?_⟩
    intro a ha b hb
    rw [List.mem_singleton.mp hb, hct]
    rcases List.mem_append.mp ha with h1 | h1
    · exact h.written_lt a h1
    · exact hul a h1
  · intro t ht
    rw [hn]
    have := h.done_lt t ht
    omega
  · intro x hx
    rw [hq'] at hx
    rw [hn]
    rcases List.mem_append.mp hx with h1 | h1
    · have := h.queue_lt x h1
      omega
    · rw [List.mem_singleton.mp h1, hct]
      omega
  · intro t ht
    rw [hn]
    have := h.written_lt t ht
    omega
  · intro x hx
    rw [hq'] at hx
    cases hsq : st.queue with
    | nil =>
      rw [hsq] at hx
      simp at hx
    | cons a t =>
      rw [hsq, List.cons_append, List.drop_succ_cons, List.drop_zero] at hx
      rcases List.mem_append.mp hx with h1 | h1
      · exact h.tail_unsent x (by rw [hsq]; simpa using h1)
      · rw [List.mem_singleton.mp h1]
        exact hcs

/-- `processQueue` preserves the invariant: it never completes a command, and
when it flushes the unsent head the head's tag extends the write trace. -/
theorem MInv_processQueue (d w : List Nat) (st : ConnState) (h : MInv d w st) :
    MInv d (w ++ wroteTags (processQueue st).2) (processQueue st).1 ∧
    compTags (processQueue st).2 = [] := by
  cases hq : st.queue with
  | nil =>
    simp only [processQueue, hq]
    exact ⟨by simpa using h, rfl⟩
  | cons c rest =>
    by_cases hs : c.sent = true
    · simp only [processQueue, hq, hs, if_true]
      exact ⟨by simpa using h, rfl⟩
    · have hs' : c.sent = false := by simpa using hs
      simp only [processQueue, hq, hs', Bool.false_eq_true, if_false]
      refine ⟨?_, rfl⟩
      have hrest : rest.filter (fun x => !x.sent) = rest := by
        rw [List.filter_eq_self]
        intro x hx
        simp [h.tail_unsent x (by rw [hq]; simpa using hx)]
      have hu : unsentTags st = c.tag :: rest.map Command.tag := by
        rw [unsentTags, hq, List.filter_cons]
        simp [hs', hrest]
      constructor
      · have := h.comp_sorted
        rw [queueTags, hq] at this
        simpa [queueTags, wroteTags, wroteTag] using this
      · have := h.wrote_sorted
        rw [hu] at this
        simp only [wroteTags_wrote, wroteTags_nil]
        have e : (w ++ [c.tag]) ++ unsentTags (startResponseTimeout
            { st with queue := { c with sent := true } :: rest } c.timeout) =
            w ++ (c.tag :: rest.map Command.tag) := by
          rw [unsentTags, startResponseTimeout_queue, List.filter_cons]
          simp [hrest, List.append_assoc]
        rw [e]
        exact this
      · intro t ht
        simpa using h.done_lt t ht
      · intro x hx
        rw [startResponseTimeout_queue] at hx
        simp only [startResponseTimeout_nextTag]
        rcases List.mem_cons.mp hx with h1 | h1
        · rw [h1]
          exact h.queue_lt c (by rw [hq]; exact List.mem_cons_self c rest)
        · exact h.queue_lt x (by rw [hq]; exact List.mem_cons_of_mem c h1)
      · intro t ht
        simp only [startResponseTimeout_nextTag]
        rcases List.mem_append.mp ht with h1 | h1
        · exact h.written_lt t h1
        · rw [List.mem_singleton.mp h1]
          exact h.queue_lt c (by rw [hq]; exact List.mem_cons_self c rest)
      · intro x hx
        rw [startResponseTimeout_queue] at hx
        simp only [List.drop_succ_cons, List.drop_zero] at hx
        exact h.tail_unsent x (by rw [hq]; simpa using hx)

/-- The try block never changes the head command's tag or sent flag. -/
theorem tryHandle_ok (c : Command) (buf : List Nat) (c' : Command) (f : Bool)
    (h : tryHandle c buf = Except.ok (c', f)) :
    c'.tag = c.tag ∧ c'.sent = c.sent := by
  unfold tryHandle at h
  cases h1 : RconPacket.inResponseTo buf c.packet with
  | error e =>
    rw [h1] at h
    simp [bind, Except.bind] at h
  | ok b =>
    rw [h1] at h
    simp only [bind, Except.bind] at h
    set c1 : Command := if b = true then { c with data := c.data ++ [buf] } else c with hc1
    have hfields : c1.tag = c.tag ∧ c1.sent = c.sent := by
      rw [hc1]
      cases b <;> simp
    cases h2 : c1.boundary with
    | some bd =>
      rw [h2] at h
      cases h3 : RconPacket.inResponseTo buf bd with
      | error e =>
        simp only [h3] at h
        cases h
      | ok bb =>
        simp only [h3, pure, Except.pure, Except.ok.injEq, Prod.mk.injEq] at h
        rw [← h.1]
        exact hfields
    | none =>
      rw [h2] at h
      simp only [pure, Except.pure, Except.ok.injEq, Prod.mk.injEq] at h
      rw [← h.1]
      exact hfields

theorem MInv_enqueue_process (d w : List Nat) (st : ConnState) (cmd : Command)
    (hct : cmd.tag = st.nextTag) (hcs : cmd.sent = false) (h : MInv d w st)
    (st1 : ConnState) (hq1 : st1.queue = st.queue ++ [cmd])
    (hn1 : st1.nextTag = st.nextTag + 1) :
    MInv (d ++ compTags (processQueue st1).2) (w ++ wroteTags (processQueue st1).2)
      (processQueue st1).1 := by
  have h1 := MInv_enqueue d w st cmd hct hcs h st1 hq1 hn1
  have h2 := MInv_processQueue d w st1 h1
  rw [h2.2]
  simpa using h2.1

theorem MInv_pop_process (d w : List Nat) (st : ConnState) (c : Command)
    (rest : List Command) (hq : st.queue = c :: rest) (h : MInv d w st)
    (st1 : ConnState) (hq1 : st1.queue = rest) (hn1 : st1.nextTag = st.nextTag) :
    MInv (d ++ (c.tag :: compTags (processQueue st1).2))
      (w ++ wroteTags (processQueue st1).2) (processQueue st1).1 := by
  have h1 := MInv_pop d w st c rest hq h st1 hq1 hn1
  have h2 := MInv_processQueue (d ++ [c.tag]) w st1 h1
  rw [h2.2]
  exact h2.1

theorem MInv_mutate_process (d w : List Nat) (st : ConnState) (c c' : Command)
    (rest : List Command) (hq : st.queue = c :: rest) (htag : c'.tag = c.tag)
    (hsent : c'.sent = c.sent) (h : MInv d w st) (st1 : ConnState)
    (hq1 : st1.queue = c' :: rest) (hn1 : st1.nextTag = st.nextTag) :
    MInv (d ++ compTags (processQueue st1).2) (w ++ wroteTags (processQueue st1).2)
      (processQueue st1).1 := by
  have h1 := MInv_mutateHead d w st c c' rest hq htag hsent h st1 hq1 hn1
  have h2 := MInv_processQueue d w st1 h1
  rw [h2.2]
  simpa using h2.1

/-- Every event step preserves the trace invariant, extending the ghost
completion and write traces by the step's outputs. -/
theorem MInv_step (d w : List Nat) (st : ConnState) (e : Event) (h : MInv d w st) :
    MInv (d ++ compTags (step st e).2) (w ++ wroteTags (step st e).2) (step st e).1 := by
  cases e with
  | send ty payload mp tOpt =>
    simp only [step, stepSend]
    exact MInv_enqueue_process d w st _ rfl rfl h _ rfl rfl
  | data buf =>
    cases hq : st.queue with
    | nil =>
      simp only [step, stepData, hq]
      simpa using h
    | cons c rest =>
      cases h3 : tryHandle c buf with
      | error e =>
        simp only [step, stepData, hq, h3, compTags_failed, wroteTags_failed]
        exact MInv_pop_process d w st c rest hq h _ rfl rfl
      | ok p =>
        obtain ⟨c', f⟩ := p
        obtain ⟨htag, hsent⟩ := tryHandle_ok c buf c' f h3
        cases f with
        | true =>
          simp only [step, stepData, hq, h3, if_true, compTags_completed, wroteTags_completed]
          exact MInv_pop_process d w st c rest hq h _ rfl rfl
        | false =>
          simp only [step, stepData, hq, h3, Bool.false_eq_true, if_false]
          exact MInv_mutate_process d w st c c' rest hq htag hsent h _ rfl rfl
  | timerFire =>
    cases ht : st.timer with
    | none =>
      simp only [step, stepTimer, ht]
      simpa using h
    | some dl =>
      cases hq : st.queue with
      | nil =>
        simp only [step, stepTimer, ht, hq]
        simpa using MInv_congr d w st ({ st with queue := [], timer := none }) h
          (by rw [hq]) rfl
      | cons c rest =>
        simp only [step, stepTimer, ht, hq, compTags_failed, compTags_nil,
          wroteTags_failed, wroteTags_nil]
        simpa using MInv_pop d w st c rest hq h
          ({ st with queue := rest, timer := none }) rfl rfl
  | sockError =>
    cases hq : st.queue with
    | nil =>
      simp only [step, stepSockError, hq]
      simpa using h
    | cons c rest =>
      simp only [step, stepSockError, hq, compTags_failed, compTags_nil,
        wroteTags_failed, wroteTags_nil]
      simpa using MInv_pop d w st c rest hq h ({ st with queue := rest }) rfl rfl

/-- Running any event sequence preserves the trace invariant, extending the
ghost traces by all emitted outputs in order. -/
theorem MInv_run (evs : List Event) : ∀ (d w : List Nat) (st : ConnState), MInv d w st →
    MInv (d ++ compTags (run st evs).2) (w ++ wroteTags (run st evs).2) (run st evs).1 := by
  induction evs with
  | nil =>
    intro d w st h
    simpa [run] using h
  | cons e es ih =>
    intro d w st h
    have h1 := MInv_step d w st e h
    have h2 := ih _ _ _ h1
    simp only [run, compTags_append, wroteTags_append, ← List.append_assoc] at h2 ⊢
    exact h2

/-- A fresh connection satisfies the invariant with empty traces. -/
theorem MInv_init (host : List Nat) (port : Int) (tOpt : Option Int) :
    MInv [] [] (init host port tOpt) := by
  constructor <;> simp [init, queueTags, unsentTags]

theorem sent_count_le_one (q : List Command) (h : ∀ c ∈ q.drop 1, c.sent = false) :
    (q.filter (fun c => c.sent)).length ≤ 1 := by
  cases q with
  | nil => simp
  | cons c rest =>
    have hrest : rest.filter (fun c => c.sent) = [] := by
      rw [List.filter_eq_nil_iff]
      intro x hx
      simp [h x (by simpa using hx)]
    rw [List.filter_cons]
    split <;> simp [hrest]

/-- C5: over every event sequence from a fresh connection, (a) every command
behind the queue head is unsent and at most one queued command is marked
sent, so at most one command is on the wire unacknowledged at any time; and
(b) the completion trace and the write trace are both strictly increasing in
submission tags — commands hit the wire at most once, in submission order,
and complete (resolve or reject) strictly in submission order, so a later
send cannot complete before an earlier one still queued. -/
theorem c5_single_inflight_fifo (host : List Nat) (port : Int) (tOpt : Option Int)
    (evs : List Event) :
    (∀ c ∈ ((run (init host port tOpt) evs).1.queue.drop 1), c.sent = false) ∧
    ((run (init host port tOpt) evs).1.queue.filter (fun c => c.sent)).length ≤ 1 ∧
    List.Pairwise (· < ·) (compTags (run (init host port tOpt) evs).2) ∧
    List.Pairwise (· < ·) (wroteTags (run (init host port tOpt) evs).2) := by
  have h := MInv_run evs [] [] (init host port tOpt) (MInv_init host port tOpt)
  simp only [List.nil_append] at h
  refine ⟨h.tail_unsent, sent_count_le_one _ h.tail_unsent, ?_, ?_⟩
  · exact (List.pairwise_append.mp h.comp_sorted).1
  · exact (List.pairwise_append.mp h.wrote_sorted).1

/-! ## C7: timeout firing -/

/-- C7 counterexample: with two queued commands (the head sent and awaited,
the second still unsent behind it), the timer firing pops and rejects the
head command — but emits no socket write and leaves the next command unsent:
the timeout callback does not re-run dispatch, so the next queued command is
not flushed to the socket. -/
theorem c7_timeout_counterexample :
    compTags (step ((run (init [104] 25575 none)
        [Event.send 2 [97] false none, Event.send 2 [98] false none]).1) Event.timerFire).2 =
      [0] ∧
    wroteTags (step ((run (init [104] 25575 none)
        [Event.send 2 [97] false none, Event.send 2 [98] false none]).1) Event.timerFire).2 =
      [] ∧
    ((step ((run (init [104] 25575 none)
        [Event.send 2 [97] false none, Event.send 2 [98] false none]).1)
          Event.timerFire).1.queue.map (fun c => (c.tag, c.sent))) = [(1, false)] := by
  decide

/-- C7 amended: when the armed timer fires, exactly the head command is
popped from the queue and rejected with a timeout error naming the endpoint
(the logprefix) and the offending packet's debug rendering; dispatch is NOT
re-run by the timer callback — nothing is written to the socket and the rest
of the queue (including the next command's sent flag) is untouched, so the
next queued command is only flushed by a later data or send event. -/
theorem c7_timeout_fire_amended (st : ConnState) (dl : Int) (c : Command)
    (rest : List Command) (ht : st.timer = some dl) (hq : st.queue = c :: rest) :
    step st Event.timerFire =
      ({ st with queue := rest, timer := none },
       [Output.failed c.tag (RconError.timeoutErr
          (logPre st ++ strTimedOut1 ++ RconPacket.toString c.packet ++ strTimedOut2))]) ∧
    wroteTags (step st Event.timerFire).2 = [] := by
  refine ⟨?_, ?_⟩ <;> simp [step, stepTimer, ht, hq, timeoutMsg, wroteTags, wroteTag]

/-- Witness for C7 amended: the state reached by two sends on a fresh
connection, whose head command carries tag 0 and packet id 1. -/
theorem c7_timeout_fire_amended_witness :
    ((run (init [104] 25575 none)
        [Event.send 2 [97] false none, Event.send 2 [98] false none]).1.timer = some 5000 ∧
      (run (init [104] 25575 none)
        [Event.send 2 [97] false none, Event.send 2 [98] false none]).1.queue =
        (⟨0, RconPacket.pack 1 2 [97], none, [], 5000, true⟩ : Command) ::
          [⟨1, RconPacket.pack 2 2 [98], none, [], 5000, false⟩]) ∧
    (step (run (init [104] 25575 none)
        [Event.send 2 [97] false none, Event.send 2 [98] false none]).1 Event.timerFire =
      ({ (run (init [104] 25575 none)
          [Event.send 2 [97] false none, Event.send 2 [98] false none]).1 with
        queue := [⟨1, RconPacket.pack 2 2 [98], none, [], 5000, false⟩], timer := none },
       [Output.failed 0 (RconError.timeoutErr
          (logPre (run (init [104] 25575 none)
              [Event.send 2 [97] false none, Event.send 2 [98] false none]).1 ++
            strTimedOut1 ++
            RconPacket.toString (RconPacket.pack 1 2 [97]) ++ strTimedOut2))]) ∧
      wroteTags (step (run (init [104] 25575 none)
        [Event.send 2 [97] false none, Event.send 2 [98] false none]).1
          Event.timerFire).2 = []) :=
  ⟨⟨by decide, by decide⟩,
    c7_timeout_fire_amended _ 5000
      ⟨0, RconPacket.pack 1 2 [97], none, [], 5000, true⟩
      [⟨1, RconPacket.pack 2 2 [98], none, [], 5000, false⟩]
      (by decide) (by decide)⟩

/-! ## C8: authentication failure with a wrong-typed reply -/

/-- C8, evaluated on the code: the server answers the AUTH request (id 1,
type 3) with a RESPONSE_VALUE packet carrying the same id 1.  That reply
fails `inResponseTo` (a RESPONSE_VALUE reply demands an EXECCOMMAND or
BOUNDARY request, never AUTH), so the auth command never completes and the
wrong-type check inside `authenticate` is unreachable; the connect attempt is
rejected only when the response timer fires, with a timeout error rather than
the claimed authentication error. -/
theorem c8_auth_wrong_type_times_out :
    RconPacket.inResponseTo (RconPacket.pack 1 0 []) (RconPacket.pack 1 3 [112]) =
      Except.ok false ∧
    successTags (run (init [104] 25575 none)
      [Event.send 3 [112] false none, Event.data (RconPacket.pack 1 0 []),
       Event.timerFire]).2 = [] ∧
    (run (init [104] 25575 none)
      [Event.send 3 [112] false none, Event.data (RconPacket.pack 1 0 []),
       Event.timerFire]).2.any isTimeoutFail = true :=
  ⟨rfl, by decide, by decide⟩

/-! ## C3: multi-packet completion -/

theorem run_append (st : ConnState) (a b : List Event) :
    run st (a ++ b) =
      ((run (run st a).1 b).1, (run st a).2 ++ (run (run st a).1 b).2) := by
  induction a generalizing st with
  | nil => simp [run]
  | cons e es ih =>
    simp only [List.cons_append, run, List.append_eq, ih, List.append_assoc]

/-- Inbound data on an empty queue is dropped without any output. -/
theorem run_data_empty (bufs : List (List Nat)) (st : ConnState) (hq : st.queue = []) :
    run st (bufs.map Event.data) = (st, []) := by
  induction bufs with
  | nil => simp [run]
  | cons b bs ih =>
    have hstep : step st (Event.data b) = (st, []) := by
      simp only [step, stepData, hq]
    simp only [List.map_cons, run, hstep]
    simp [ih]

/-- A reply that `inResponseTo` accepts shares the request's id, and both
buffers were long enough for every field read. -/
theorem inResponseTo_ok_true_id (r q : List Nat)
    (h : RconPacket.inResponseTo r q = Except.ok true) :
    RconPacket.id r = RconPacket.id q ∧ 12 ≤ r.length ∧ 8 ≤ q.length := by
  unfold RconPacket.inResponseTo RconPacket.readIdE RconPacket.readTypeE at h
  by_cases hq8 : 8 ≤ q.length
  · rw [if_pos hq8] at h
    by_cases hr8 : 8 ≤ r.length
    · rw [if_pos hr8] at h
      simp only [bind, Except.bind] at h
      by_cases hid : RconPacket.id q = RconPacket.id r
      · by_cases hr12 : 12 ≤ r.length
        · exact ⟨hid.symm, hr12, hq8⟩
        · rw [if_neg (by simpa using hid), if_neg hr12] at h
          simp only [bind, Except.bind] at h
          cases h
      · rw [if_pos (by simpa using hid)] at h
        cases h
    · rw [if_neg hr8] at h
      simp only [bind, Except.bind] at h
      cases h
  · rw [if_neg hq8] at h
    simp only [bind, Except.bind] at h
    cases h

/-- While no inbound packet matches the boundary packet (and none makes a
field read throw), the single queued multipacket command stays queued and
unresolved with no output, and its collected data grows by exactly the
packets that satisfy `inResponseTo` against the request packet, in arrival
order. -/
theorem c3_run_pre (pkt bnd : List Nat) (tag : Nat) (tmo : Int) (pre : List (List Nat)) :
    ∀ (st : ConnState) (dat : List (List Nat)),
    st.queue = [⟨tag, pkt, some bnd, dat, tmo, true⟩] →
    (∀ x ∈ pre, RconPacket.inResponseTo x bnd = Except.ok false ∧
      ∃ b, RconPacket.inResponseTo x pkt = Except.ok b) →
    run st (pre.map Event.data) =
      ({ st with queue := [⟨tag, pkt, some bnd,
          dat ++ (pre.filter fun x => isOkTrue (RconPacket.inResponseTo x pkt)), tmo, true⟩] },
       []) := by
  induction pre with
  | nil =>
    intro st dat hq hpre
    simp only [List.map_nil, run, List.filter_nil, List.append_nil]
    rw [← hq]
  | cons x xs ih =>
    intro st dat hq hpre
    obtain ⟨hxb, bx, hbx⟩ := hpre x (List.mem_cons_self x xs)
    have hstep : step st (Event.data x) =
        ({ st with queue := [⟨tag, pkt, some bnd,
            dat ++ (if isOkTrue (RconPacket.inResponseTo x pkt) then [x] else []),
            tmo, true⟩] }, []) := by
      cases bx with
      | true =>
        simp [step, stepData, hq, tryHandle, hbx, hxb, bind, Except.bind, pure, Except.pure,
          processQueue, isOkTrue]
      | false =>
        simp [step, stepData, hq, tryHandle, hbx, hxb, bind, Except.bind, pure, Except.pure,
          processQueue, isOkTrue]
    have hfil : (if isOkTrue (RconPacket.inResponseTo x pkt) then [x] else []) ++
        (xs.filter fun y => isOkTrue (RconPacket.inResponseTo y pkt)) =
        ((x :: xs).filter fun y => isOkTrue (RconPacket.inResponseTo y pkt)) := by
      rw [List.filter_cons]
      split <;> simp
    simp only [List.map_cons, run, hstep]
    rw [ih _ _ rfl (fun y hy => hpre y (List.mem_cons_of_mem x hy))]
    simp [← hfil, List.append_assoc]

/-- The boundary reply: a packet matching the boundary completes the single
queued command and delivers exactly the data collected so far — the boundary
reply itself is not collected, since its id differs from the request's. -/
theorem c3_run_t (pkt bnd t : List Nat) (tag : Nat) (tmo : Int) (st : ConnState)
    (dat : List (List Nat))
    (hq : st.queue = [⟨tag, pkt, some bnd, dat, tmo, true⟩])
    (hids : RconPacket.id bnd ≠ RconPacket.id pkt)
    (hp8 : 8 ≤ pkt.length)
    (htb : RconPacket.inResponseTo t bnd = Except.ok true) :
    step st (Event.data t) = ({ st with queue := [], timer := none },
      [Output.completed tag dat]) := by
  obtain ⟨hid, hr12, hq8⟩ := inResponseTo_ok_true_id t bnd htb
  have htp : RconPacket.inResponseTo t pkt = Except.ok false := by
    unfold RconPacket.inResponseTo RconPacket.readIdE
    rw [if_pos hp8, if_pos (by omega : 8 ≤ t.length)]
    simp only [bind, Except.bind]
    rw [if_pos (show RconPacket.id pkt ≠ RconPacket.id t by
      rw [hid]; exact fun h => hids h.symm)]
    rfl
  simp [step, stepData, hq, tryHandle, htp, htb, bind, Except.bind, pure, Except.pure,
    processQueue]

/-- The `reduce` in `send()` concatenates the collected payloads in order. -/
theorem resolveText_eq_flatten (pkts : List (List Nat)) :
    resolveText pkts = (pkts.map RconPacket.payload).flatten := by
  suffices h : ∀ acc, pkts.foldl (fun a p => a ++ RconPacket.payload p) acc =
      acc ++ (pkts.map RconPacket.payload).flatten by
    simpa using h []
  induction pkts with
  | nil => simp
  | cons p ps ih =>
    intro acc
    simp [List.foldl_cons, ih, List.append_assoc]

/-- C3: for a command sent with multipacket requested on a fresh connection
(request packet id 1, boundary packet id 2), as long as no inbound packet
satisfies `inResponseTo` against the boundary packet the command does not
complete and nothing is emitted beyond the initial socket write; the first
inbound packet satisfying `inResponseTo` against the boundary completes the
command, resolving it with exactly the packets that satisfied `inResponseTo`
against the request packet before that point, in arrival order, excluding the
boundary reply itself — and the resolved text is the concatenation of those
packets' payloads in that order. -/
theorem c3_multipacket_completion (host : List Nat) (port : Int) (tOptC tOptS : Option Int)
    (payload : List Nat) (pre post : List (List Nat)) (t : List Nat)
    (hpre : ∀ x ∈ pre,
      RconPacket.inResponseTo x (RconPacket.pack 2 255 []) = Except.ok false ∧
      ∃ b, RconPacket.inResponseTo x (RconPacket.pack 1 2 payload) = Except.ok b)
    (ht : RconPacket.inResponseTo t (RconPacket.pack 2 255 []) = Except.ok true) :
    (run (init host port tOptC) (Event.send 2 payload true tOptS :: pre.map Event.data)).2 =
      [Output.wrote 0 [RconPacket.pack 1 2 payload, RconPacket.pack 2 255 []]] ∧
    (run (init host port tOptC)
        (Event.send 2 payload true tOptS :: (pre ++ t :: post).map Event.data)).2 =
      [Output.wrote 0 [RconPacket.pack 1 2 payload, RconPacket.pack 2 255 []],
       Output.completed 0 (pre.filter fun x =>
         isOkTrue (RconPacket.inResponseTo x (RconPacket.pack 1 2 payload)))] ∧
    resolveText (pre.filter fun x =>
        isOkTrue (RconPacket.inResponseTo x (RconPacket.pack 1 2 payload))) =
      ((pre.filter fun x =>
          isOkTrue (RconPacket.inResponseTo x (RconPacket.pack 1 2 payload))).map
        RconPacket.payload).flatten := by
  have hw1 : wrapInc 0 = 1 := by norm_num [wrapInc]
  have hw2 : wrapInc 1 = 2 := by norm_num [wrapInc]
  have hsend : step (init host port tOptC) (Event.send 2 payload true tOptS) =
      (c3MidState host port tOptC tOptS payload [],
       [Output.wrote 0 [RconPacket.pack 1 2 payload, RconPacket.pack 2 255 []]]) := by
    simp [step, stepSend, init, processQueue, startResponseTimeout, hw1, hw2, c3MidState]
  have hprerun : run (c3MidState host port tOptC tOptS payload []) (pre.map Event.data) =
      (c3MidState host port tOptC tOptS payload
        (pre.filter fun x => isOkTrue (RconPacket.inResponseTo x (RconPacket.pack 1 2 payload))),
       []) := by
    have h := c3_run_pre (RconPacket.pack 1 2 payload) (RconPacket.pack 2 255 []) 0
      (tOptS.getD (initTimeout tOptC)) pre
      (c3MidState host port tOptC tOptS payload []) [] (by simp [c3MidState]) hpre
    simpa [c3MidState] using h
  have hids : RconPacket.id (RconPacket.pack 2 255 []) ≠
      RconPacket.id (RconPacket.pack 1 2 payload) := by
    rw [id_pack, id_pack, toSigned32_emod 2 (by norm_num) (by norm_num),
      toSigned32_emod 1 (by norm_num) (by norm_num)]
    norm_num
  have hp8 : 8 ≤ (RconPacket.pack 1 2 payload).length := by
    rw [pack_length]
    omega
  have htrun : step (c3MidState host port tOptC tOptS payload
        (pre.filter fun x =>
          isOkTrue (RconPacket.inResponseTo x (RconPacket.pack 1 2 payload))))
        (Event.data t) =
      ({ c3MidState host port tOptC tOptS payload
          (pre.filter fun x =>
            isOkTrue (RconPacket.inResponseTo x (RconPacket.pack 1 2 payload))) with
        queue := [], timer := none },
       [Output.completed 0 (pre.filter fun x =>
         isOkTrue (RconPacket.inResponseTo x (RconPacket.pack 1 2 payload)))]) :=
    c3_run_t (RconPacket.pack 1 2 payload) (RconPacket.pack 2 255 []) t 0
      (tOptS.getD (initTimeout tOptC)) _ _ (by simp [c3MidState]) hids hp8 ht
  refine ⟨?_, ?_, resolveText_eq_flatten _⟩
  · simp only [run, hsend, hprerun]
    rfl
  · rw [List.map_append]
    simp only [run, hsend]
    rw [run_append, hprerun]
    simp only [List.map_cons, run, htrun]
    rw [run_data_empty post _ (by simp)]
    simp

/-- Witness for C3: request id 1 with payload c, boundary id 2; two
RESPONSE_VALUE packets arrive before the boundary reply (one matching id 1,
one with the foreign id 7), then the boundary reply (id 2), then a late
packet that is dropped. -/
theorem c3_multipacket_completion_witness :
    RconPacket.inResponseTo (RconPacket.pack 2 0 []) (RconPacket.pack 2 255 []) =
      Except.ok true ∧
    ((run (init [104] 1 none) (Event.send 2 [99] true none ::
        ([RconPacket.pack 1 0 [97], RconPacket.pack 7 0 [120]].map Event.data))).2 =
      [Output.wrote 0 [RconPacket.pack 1 2 [99], RconPacket.pack 2 255 []]] ∧
     (run (init [104] 1 none) (Event.send 2 [99] true none ::
        (([RconPacket.pack 1 0 [97], RconPacket.pack 7 0 [120]] ++
          RconPacket.pack 2 0 [] :: [RconPacket.pack 1 0 [122]]).map Event.data))).2 =
      [Output.wrote 0 [RconPacket.pack 1 2 [99], RconPacket.pack 2 255 []],
       Output.completed 0 ([RconPacket.pack 1 0 [97], RconPacket.pack 7 0 [120]].filter
         fun x => isOkTrue (RconPacket.inResponseTo x (RconPacket.pack 1 2 [99])))] ∧
     resolveText ([RconPacket.pack 1 0 [97], RconPacket.pack 7 0 [120]].filter
         fun x => isOkTrue (RconPacket.inResponseTo x (RconPacket.pack 1 2 [99]))) =
       (([RconPacket.pack 1 0 [97], RconPacket.pack 7 0 [120]].filter
         fun x => isOkTrue (RconPacket.inResponseTo x (RconPacket.pack 1 2 [99]))).map
           RconPacket.payload).flatten) :=
  ⟨rfl,
    c3_multipacket_completion [104] 1 none none [99]
      [RconPacket.pack 1 0 [97], RconPacket.pack 7 0 [120]] [RconPacket.pack 1 0 [122]]
      (RconPacket.pack 2 0 [])
      (by
        intro x hx
        simp only [List.mem_cons, List.not_mem_nil, or_false] at hx
        rcases hx with rfl | rfl
        · exact ⟨rfl, true, rfl⟩
        · exact ⟨rfl, false, rfl⟩)
      rfl⟩
